import Mathlib

/-!
Verification of the multiplayer "21" card-game subsystem of `src/main.py`.

The Python handlers operate on three persistent tables:
  * `users(user_id, balance, negative_balance, ...)`
  * `multiplayer_games(game_id, host_id, max_players, bet_amount, status, deck, ...)`
  * `game_players(game_id, user_id, username, cards, value, stopped, joined_at)`

We embed each table row as a structure.  A room's seat rows are kept as a
`List Player` in `joined_at` order, matching the `ORDER BY joined_at` used by
every query in the source.  Decks and hands are stored as comma-joined card
strings in the database; we keep them as `List String` of card tokens such as
`"10♠"`, which is exactly the list the Python code works on after `split(',')`.
`deck.pop()` in Python removes the *last* element, modelled by
`getLast?`/`dropLast`.  Randomness (`random.shuffle`, `random.randint`) is
passed in as an explicit parameter.
-/

/-- One row of the `users` table (the columns the game touches). -/
structure Account where
  balance : Int
  negative : Int
deriving DecidableEq, Repr

/-- Model of `update_user_balance` (src/main.py): add `delta` to the stored
balance; if the result would be negative, store 0 and accumulate the shortfall
in the `negative_balance` column. -/
def update_user_balance (acc : Account) (delta : Int) : Account :=
  let new_balance := acc.balance + delta
  if new_balance < 0 then
    { balance := 0, negative := acc.negative + (-new_balance) }
  else
    { balance := new_balance, negative := acc.negative }

/-- The `users` table, restricted to the columns the game touches. -/
def Balances := List (Int × Account)

instance : DecidableEq Balances := inferInstanceAs (DecidableEq (List (Int × Account)))

/-- Model of `get_user_balance`: the stored balance, 0 if the row is absent. -/
def get_user_balance (bs : Balances) (uid : Int) : Int :=
  match bs.lookup uid with
  | some a => a.balance
  | none => 0

/-- `update_user_balance` run against the table: the `UPDATE ... WHERE
user_id=$1` touches only the matching row, and the early `return` on a missing
row makes the call a no-op for absent users. -/
def updBal (bs : Balances) (uid : Int) (delta : Int) : Balances :=
  bs.map (fun e => if e.1 = uid then (e.1, update_user_balance e.2 delta) else e)

/-- Decimal parse of a rank token, the `int(rank)` of the source on the
non-negative decimal strings that occur as ranks. -/
def str_to_nat (s : String) : Option Nat :=
  if s.data.isEmpty then none
  else if s.data.all Char.isDigit then
    some (s.data.foldl (fun n c => n * 10 + (c.toNat - ('0').toNat)) 0)
  else none

/-- One step of the accumulation loop in `calculate_hand_value`: running
`(value, aces)` pair updated by one card.  `rank = card[:-1]` strips the
one-character suit glyph.  (For a malformed numeric rank the source's
`int(rank)` would raise; such tokens never occur in a deck and we read them
as 0.) -/
def handStep (acc : Nat × Nat) (card : String) : Nat × Nat :=
  let rank := card.dropRight 1
  if rank == "J" || rank == "Q" || rank == "K" then (acc.1 + 10, acc.2)
  else if rank == "A" then (acc.1 + 11, acc.2 + 1)
  else (acc.1 + (str_to_nat rank).getD 0, acc.2)

/-- The `while value > 21 and aces:` loop of `calculate_hand_value`:
subtract 10 per remaining ace while the total exceeds 21. -/
def soften : Nat → Nat → Nat
  | value, 0 => value
  | value, aces + 1 => if value > 21 then soften (value - 10) aces else value

/-- Model of `calculate_hand_value` (src/main.py): a single pass accumulating
the raw total (aces as 11) and the ace count, then the softening loop. -/
def calculate_hand_value (cards : List String) : Nat :=
  let acc := cards.foldl handStep (0, 0)
  soften acc.1 acc.2

/-- Point value of a single card as described per-branch in the source:
J/Q/K count 10, an ace counts 11 before softening, numeric ranks at face. -/
def card_points (card : String) : Nat :=
  let rank := card.dropRight 1
  if rank == "J" || rank == "Q" || rank == "K" then 10
  else if rank == "A" then 11
  else (str_to_nat rank).getD 0

/-- Raw hand total before ace softening. -/
def base_total (cards : List String) : Nat :=
  (cards.map card_points).sum

/-- Number of aces in a hand. -/
def ace_count (cards : List String) : Nat :=
  cards.countP (fun card => card.dropRight 1 == "A")

/-- The four suit glyphs of `create_deck`. -/
def SUITS : List String := ["♠", "♥", "♦", "♣"]

/-- The thirteen rank tokens of `create_deck`. -/
def RANKS : List String := ["2", "3", "4", "5", "6", "7", "8", "9", "10", "J", "Q", "K", "A"]

/-- The comprehension `[f"{rank}{suit}" for suit in suits for rank in ranks]`
in `create_deck`: outer loop over suits, inner over ranks. -/
def base_deck : List String :=
  SUITS.flatMap (fun s => RANKS.map (fun r => r ++ s))

/-- Model of `create_deck` (src/main.py): build the 52-card list and shuffle
it.  `random.shuffle` is modelled by an explicit `shuffle` parameter; claims
about it are proved for every permutation-valued `shuffle`. -/
def create_deck (shuffle : List String → List String) : List String :=
  shuffle base_deck

lemma handStep_fold (cards : List String) :
    ∀ v a, cards.foldl handStep (v, a) = (v + base_total cards, a + ace_count cards) := by
  induction cards with
  | nil => intro v a; simp [base_total, ace_count]
  | cons c cs ih =>
    intro v a
    simp only [List.foldl_cons]
    by_cases hJ : (c.dropRight 1 == "J" || c.dropRight 1 == "Q" || c.dropRight 1 == "K") = true
    · have hstep : handStep (v, a) c = (v + 10, a) := by
        simp [handStep, hJ]
      have hA : (c.dropRight 1 == "A") = false := by
        rcases Bool.or_eq_true _ _ |>.mp hJ with h | h
        · rcases Bool.or_eq_true _ _ |>.mp h with h' | h'
          · simp [beq_iff_eq.mp h']
          · simp [beq_iff_eq.mp h']
        · simp [beq_iff_eq.mp h]
      rw [hstep, ih]
      have hpts : card_points c = 10 := by simp [card_points, hJ]
      simp [base_total, ace_count, List.countP_cons, hA, hpts]
      omega
    · by_cases hA : (c.dropRight 1 == "A") = true
      · have hstep : handStep (v, a) c = (v + 11, a + 1) := by
          simp only [handStep]
          rw [if_neg (by simp [hJ]), if_pos hA]
        have hpts : card_points c = 11 := by
          simp only [card_points]
          rw [if_neg (by simp [hJ]), if_pos hA]
        rw [hstep, ih]
        simp [base_total, ace_count, List.countP_cons, hA, hpts]
        omega
      · have hstep : handStep (v, a) c = (v + (str_to_nat (c.dropRight 1)).getD 0, a) := by
          simp only [handStep]
          rw [if_neg (by simp [hJ]), if_neg (by simp [hA])]
        have hpts : card_points c = (str_to_nat (c.dropRight 1)).getD 0 := by
          simp only [card_points]
          rw [if_neg (by simp [hJ]), if_neg (by simp [hA])]
        rw [hstep, ih]
        simp [base_total, ace_count, List.countP_cons, hA, hpts]
        omega

/-- C7: `calculate_hand_value` counts J/Q/K as 10, numeric ranks at face,
aces as 11, then subtracts 10 per softenable ace while the total exceeds 21;
ace+ace+9 gives 21, ace+king gives 21, and 10+10+5 gives 25. -/
theorem hand_value_spec :
    calculate_hand_value ["A♠", "A♥", "9♦"] = 21 ∧
    calculate_hand_value ["A♠", "K♥"] = 21 ∧
    calculate_hand_value ["10♠", "10♥", "5♦"] = 25 ∧
    ∀ cards : List String,
      calculate_hand_value cards = soften (base_total cards) (ace_count cards) := by
  refine ⟨by decide, by decide, by decide, ?_⟩
  intro cards
  have h := handStep_fold cards 0 0
  simp only [calculate_hand_value]
  rw [h]
  simp

/-- C8: `create_deck` returns 52 cards, with each (rank, suit) pair occurring
exactly once, for every permutation-valued shuffle. -/
theorem create_deck_complete (shuffle : List String → List String)
    (hs : ∀ l : List String, (shuffle l).Perm l) :
    (create_deck shuffle).length = 52 ∧
    ∀ r ∈ RANKS, ∀ s ∈ SUITS, (create_deck shuffle).count (r ++ s) = 1 := by
  have hp := hs base_deck
  constructor
  · rw [create_deck, hp.length_eq]
    decide
  · have hbase : ∀ r ∈ RANKS, ∀ s ∈ SUITS, base_deck.count (r ++ s) = 1 := by decide
    intro r hr s hsu
    rw [create_deck, hp.count_eq]
    exact hbase r hr s hsu

/-- Witness for `create_deck_complete` at the identity shuffle. -/
theorem create_deck_complete_witness : (create_deck id).length = 52 :=
  (create_deck_complete id (fun l => List.Perm.refl l)).1

/-- C10: `update_user_balance` never stores a negative balance; when
`balance + delta` is below zero the stored balance becomes 0 and the shortfall
is added to `negative_balance`; hence a debit lowers the visible balance by at
most the current balance. -/
theorem update_user_balance_clamps :
    ∀ b n d : Int,
      (update_user_balance ⟨b, n⟩ d).balance = max (b + d) 0 ∧
      (update_user_balance ⟨b, n⟩ d).negative = n + max (-(b + d)) 0 ∧
      (0 ≤ b → b - (update_user_balance ⟨b, n⟩ d).balance ≤ b) := by
  intro b n d
  by_cases h : b + d < 0 <;>
    simp only [update_user_balance, h, if_true, if_false, reduceIte] <;>
    refine ⟨by omega, by omega, fun hb => by omega⟩

/-- Witness for `update_user_balance_clamps`: an 8-coin debit against a 5-coin
balance lowers the visible balance by only 5. -/
theorem update_user_balance_clamps_witness :
    (0 : Int) ≤ 5 ∧ (5 : Int) - (update_user_balance ⟨5, 0⟩ (-8)).balance ≤ 5 :=
  ⟨by decide, (update_user_balance_clamps 5 0 (-8)).2.2 (by decide)⟩

/-- Status column of `multiplayer_games`.  Rooms are deleted (never marked
closed) at settlement or when the last seat leaves, so only these two values
are ever stored. -/
inductive RoomStatus
  | waiting
  | playing
deriving DecidableEq, Repr

/-- One row of `multiplayer_games` (the `created_at` column only orders the
room listing and is not modelled). -/
structure Room where
  game_id : String
  host_id : Int
  max_players : Nat
  bet_amount : Int
  status : RoomStatus
  deck : List String
deriving DecidableEq, Repr

/-- One row of `game_players`.  `joined_at` is the stored join timestamp; a
room's rows are kept in `joined_at` order, matching the `ORDER BY joined_at`
of every fetch.  `user_id = 0` is the synthetic dealer seat. -/
structure Player where
  user_id : Int
  username : String
  cards : List String
  value : Nat
  stopped : Bool
  joined_at : Nat
deriving DecidableEq, Repr

/-- `MAX_ROOMS = 20` (src/main.py). -/
def MAX_ROOMS : Nat := 20

/-- `MIN_PLAYERS = 2` (src/main.py). -/
def MIN_PLAYERS : Nat := 2

/-- `DEALER_WIN_RATE = 3` (src/main.py). -/
def DEALER_WIN_RATE : Nat := 3

/-- The capacity check of `create_room_start`: count the rooms with
`status='waiting'` and reject when the count has reached `MAX_ROOMS`. -/
def create_room_start_rejects (rooms : List Room) : Bool :=
  decide (MAX_ROOMS ≤ (rooms.filter (fun r => r.status == .waiting)).length)

/-- Model of `join_room_callback` (src/main.py).  Besides the inputs of the
handler it takes the fetched room row, the room's seat rows, the joiner's
timestamp `t` and the `users` table.  `none` models every rejection path
(room missing or not waiting, room full, already seated, balance below the
stake); on success the handler only INSERTs the seat row — it performs no
balance write, so the `users` table is returned unchanged. -/
def join_room_callback (room : Room) (players : List Player) (uid : Int)
    (uname : String) (t : Nat) (bs : Balances) : Option (List Player × Balances) :=
  if room.status ≠ .waiting then none
  else if room.max_players ≤ players.length then none
  else if players.any (fun p => p.user_id == uid) then none
  else if get_user_balance bs uid < room.bet_amount then none
  else some (players ++ [⟨uid, uname, [], 0, false, t⟩], bs)

/-- Model of `leave_room_callback` (src/main.py).  Returns the surviving room
row (`none` when the handler DELETEs the room), the seat rows and the `users`
table.  Waiting branch: credit the stake back, delete the seat, promote the
earliest remaining seat when the host left (or delete the empty room).
Playing branch: debit the stake as a penalty, mark the seat stopped, and
delete the room when no unstopped non-dealer seat remains. -/
def leave_room_callback (room : Room) (players : List Player) (uid : Int)
    (bs : Balances) : Option Room × List Player × Balances :=
  match room.status with
  | .waiting =>
    let bs' := updBal bs uid room.bet_amount
    let players' := players.filter (fun p => p.user_id != uid)
    if room.host_id = uid then
      match players'.head? with
      | some h => (some { room with host_id := h.user_id }, players', bs')
      | none => (none, players', bs')
    else (some room, players', bs')
  | .playing =>
    let bs' := updBal bs uid (-room.bet_amount)
    let players' := players.map (fun p => if p.user_id == uid then { p with stopped := true } else p)
    if (players'.filter (fun p => p.user_id != 0 && !p.stopped)).length = 0 then
      (none, [], bs')
    else (some room, players', bs')

/-- `deck.pop()` on the comma-joined deck string: Python's `pop` removes the
last element. -/
def pop1 (deck : List String) : Option (String × List String) :=
  match deck.getLast? with
  | none => none
  | some c => some (c, deck.dropLast)

/-- The initial-deal loop of `start_game_callback`: each seat row in turn
receives `[deck.pop(), deck.pop()]` and its recomputed value.  `none` models
the `IndexError` the source would raise on an exhausted deck (unreachable
from a fresh 52-card deck). -/
def deal2each : List Player → List String → Option (List Player × List String)
  | [], deck => some ([], deck)
  | p :: ps, deck =>
    match pop1 deck with
    | none => none
    | some (c1, d1) =>
      match pop1 d1 with
      | none => none
      | some (c2, d2) =>
        match deal2each ps d2 with
        | none => none
        | some (ps', d') =>
          some ({ p with cards := [c1, c2], value := calculate_hand_value [c1, c2] } :: ps', d')

/-- Model of `start_game_callback` (src/main.py).  `fresh` is the deck
produced by `create_deck()` and `t` the dealer row's timestamp.  Rejections
(`none`): room missing or not waiting, caller is not the host, fewer than
`MIN_PLAYERS` seats.  On success: status becomes playing, every seat is dealt
two cards, a dealer seat with user id 0 and an empty hand is INSERTed last,
and the remaining deck is stored on the room. -/
def start_game_callback (room : Room) (players : List Player) (uid : Int)
    (fresh : List String) (t : Nat) : Option (Room × List Player) :=
  if room.status ≠ .waiting then none
  else if room.host_id ≠ uid then none
  else if players.length < MIN_PLAYERS then none
  else
    match deal2each players fresh with
    | none => none
    | some (ps', d') =>
      some ({ room with status := .playing, deck := d' }, ps' ++ [⟨0, "Дилер", [], 0, false, t⟩])

/-- Outcome of `process_next_turn` (src/main.py): silently return when the
room is gone or not playing, hand over to `dealer_turn` when the index has
passed the last non-dealer seat, otherwise store the turn context in the
indexed seat's session and prompt that seat. -/
inductive TurnStep
  | noop
  | to_dealer
  | prompt (uid : Int) (idx : Nat)
deriving DecidableEq, Repr

/-- Model of `process_next_turn` (src/main.py).  The seat list is fetched
with `user_id != 0 ORDER BY joined_at`; note the source indexes it directly,
with no skipping of stopped seats. -/
def process_next_turn (roomq : Option Room) (players : List Player) (idx : Nat) : TurnStep :=
  match roomq with
  | none => .noop
  | some room =>
    if room.status ≠ .playing then .noop
    else
      match (players.filter (fun p => p.user_id != 0))[idx]? with
      | none => .to_dealer
      | some p => .prompt p.user_id idx

/-- The three buttons `room_hit`, `room_stand`, `room_surrender`. -/
inductive RoomAction
  | hit
  | stand
  | surrender
deriving DecidableEq, Repr

/-- `UPDATE game_players SET stopped=TRUE WHERE game_id=$1 AND user_id=$2`. -/
def mark_stopped (players : List Player) (uid : Int) : List Player :=
  players.map (fun p => if p.user_id == uid then { p with stopped := true } else p)

/-- Model of `room_action_callback` (src/main.py).  `sIdx` is the
`player_index` stored in the submitting user's own session by
`process_next_turn` (`none` when the session holds no game).  `none` models
the rejection paths, which leave every table untouched: no session game, room
missing or not playing, stored index out of range, or the indexed seat
belonging to a different user.  The passing check compares only the session
index's seat against the submitter — it consults neither a room-level turn
pointer nor the seat's `stopped` flag.  On hit with an empty deck the seat is
force-stopped; otherwise one card is popped, the hand and stored value are
updated, and a value above 21 stops the seat.  Surrender debits the stake
immediately. -/
def room_action_callback (roomq : Option Room) (players : List Player)
    (sIdx : Option Nat) (uid : Int) (act : RoomAction) (bs : Balances) :
    Option (Room × List Player × Balances) :=
  match sIdx with
  | none => none
  | some idx =>
    match roomq with
    | none => none
    | some room =>
      if room.status ≠ .playing then none
      else
        match (players.filter (fun p => p.user_id != 0))[idx]? with
        | none => none
        | some p =>
          if p.user_id != uid then none
          else
            match act with
            | .stand => some (room, mark_stopped players uid, bs)
            | .surrender => some (room, mark_stopped players uid, updBal bs uid (-room.bet_amount))
            | .hit =>
              match pop1 room.deck with
              | none => some (room, mark_stopped players uid, bs)
              | some (c, deck') =>
                let cards' := p.cards ++ [c]
                let v' := calculate_hand_value cards'
                let players' := players.map (fun q =>
                  if q.user_id == uid then
                    { q with cards := cards', value := v',
                             stopped := if v' > 21 then true else q.stopped }
                  else q)
                some ({ room with deck := deck' }, players', bs)

/-- The dealer draw loop of `dealer_turn`: while the dealer's value is below
17 and the deck is non-empty, pop a card and recompute.  The deck is consumed
from its tail (`deck.pop()`), so the loop runs on the reversed deck.  Returns
the dealer's final hand, final value and the unconsumed (reversed) deck. -/
def dealer_draw : List String → Nat → List String → List String × Nat × List String
  | cards, value, [] => (cards, value, [])
  | cards, value, c :: rest =>
    if value < 17 then
      let cards' := cards ++ [c]
      dealer_draw cards' (calculate_hand_value cards') rest
    else (cards, value, c :: rest)

/-- The per-seat settlement cascade of `dealer_turn`, in the source's branch
order: bust, forced dealer win, dealer bust, seat greater, seat lesser, push.
`some d` is the delta passed to `update_user_balance`; `none` is the push
branch, which performs no balance call at all. -/
def settle_delta (forced : Bool) (dealer_value : Nat) (bet : Int) (pv : Nat) : Option Int :=
  if pv > 21 then some (-bet)
  else if forced then some (-bet)
  else if dealer_value > 21 then some (bet - 1)
  else if pv > dealer_value then some (bet - 1)
  else if pv < dealer_value then some (-bet)
  else none

/-- Modelled from the spec: the settlement rule list of §4.5, evaluated in
its stated priority order 1–6, for comparison with `settle_delta`. -/
def settlement_rules_spec (forced : Bool) (dealer_value : Nat) (bet : Int) (pv : Nat) : Option Int :=
  if pv > 21 then some (-bet)
  else if forced then some (-bet)
  else if dealer_value > 21 then some (bet - 1)
  else if pv > dealer_value then some (bet - 1)
  else if pv < dealer_value then some (-bet)
  else none

/-- Model of `dealer_turn` (src/main.py), up to its balance effects.  `r` is
the `random.randint(1, DEALER_WIN_RATE)` draw; the room is flagged a forced
dealer win when it equals 1.  The dealer row (`user_id = 0`) supplies the
starting hand; the draw loop runs, then every seat fetched with
`user_id != 0` — stopped or not — is settled against the dealer's final
value.  (The handler then notifies every seat and DELETEs the seat rows and
the room row; only the resulting `users` table is returned here.) -/
def dealer_turn (room : Room) (players : List Player) (r : Nat) (bs : Balances) : Balances :=
  if room.status ≠ .playing then bs
  else
    let dealerq := (players.filter (fun p => p.user_id == 0)).head?
    let dcards := dealerq.elim [] (fun d => d.cards)
    let dvalue := dealerq.elim 0 (fun d => d.value)
    let res := dealer_draw dcards dvalue room.deck.reverse
    let forced := r == 1
    let ps := players.filter (fun p => p.user_id != 0)
    ps.foldl (fun acc p =>
      match settle_delta forced res.2.1 room.bet_amount p.value with
      | some d => updBal acc p.user_id d
      | none => acc) bs

/-- A waiting room with host 1, five seats and a stake of 3. -/
def roomA : Room := ⟨"R1AAAA", 1, 5, 3, .waiting, []⟩

/-- The host's seat in `roomA`. -/
def pHost : Player := ⟨1, "host", [], 0, false, 0⟩

/-- The seat `join_room_callback` inserts for player 2 in `roomA`. -/
def pJoin : Player := ⟨2, "p2", [], 0, false, 1⟩

/-- Balances before player 2 joins `roomA`: host holds 20 coins, player 2
holds 10. -/
def bsA : Balances := [(1, ⟨20, 0⟩), (2, ⟨10, 0⟩)]

/-- Balances after player 2 joins `roomA` and leaves again. -/
def bsA' : Balances := [(1, ⟨20, 0⟩), (2, ⟨13, 0⟩)]

/-- C1: player 2 (balance 10) joins the waiting room `roomA` (stake 3).  The
join succeeds and inserts the seat, but the `users` table is untouched: the
post-join balance is still 10, not 10 minus the stake — the handler performs
no debit at all. -/
theorem join_room_no_debit :
    join_room_callback roomA [pHost] 2 "p2" 1 bsA = some ([pHost, pJoin], bsA) ∧
    get_user_balance bsA 2 = 10 ∧
    get_user_balance bsA 2 ≠ 10 - roomA.bet_amount := by
  decide

/-- C2: player 2 (balance 10) joins the waiting room `roomA` (stake 3) and
leaves before the game starts.  The join leaves the balance at 10 and the
leave credits the stake, so the round trip ends at 13 coins, not at the
starting 10: the player mints the stake. -/
theorem join_then_leave_mints :
    join_room_callback roomA [pHost] 2 "p2" 1 bsA = some ([pHost, pJoin], bsA) ∧
    leave_room_callback roomA [pHost, pJoin] 2 bsA = (some roomA, [pHost], bsA') ∧
    get_user_balance bsA' 2 = 13 ∧ (13 : Int) ≠ 10 := by
  decide

/-- A playing room with a stake of 5 whose remaining deck will leave the
dealer at 18. -/
def roomB : Room := ⟨"R2BBBB", 1, 2, 5, .playing, ["2♠", "3♠", "10♦", "8♦"]⟩

/-- Seat 1 of `roomB`, holding 19. -/
def rA : Player := ⟨1, "ann", ["10♠", "9♥"], 19, false, 0⟩

/-- Seat 2 of `roomB`, holding 15; this seat leaves during play. -/
def rB : Player := ⟨2, "bob", ["7♠", "8♥"], 15, false, 1⟩

/-- The dealer seat of `roomB`. -/
def rD : Player := ⟨0, "Дилер", [], 0, false, 2⟩

/-- Seat 2 after its leave marked it stopped. -/
def rB' : Player := ⟨2, "bob", ["7♠", "8♥"], 15, true, 1⟩

/-- Seat 1 after it stands. -/
def rA' : Player := ⟨1, "ann", ["10♠", "9♥"], 19, true, 0⟩

/-- Balances before the hand: both players hold 100. -/
def bsB : Balances := [(1, ⟨100, 0⟩), (2, ⟨100, 0⟩)]

/-- Balances right after seat 2's leave: its stake of 5 debited once. -/
def bsB1 : Balances := [(1, ⟨100, 0⟩), (2, ⟨95, 0⟩)]

/-- Balances after settlement: seat 2 has been debited a second time. -/
def bsBF : Balances := [(1, ⟨104, 0⟩), (2, ⟨90, 0⟩)]

/-- C3: seat 2 leaves `roomB` during play and is debited its stake of 5,
leaving it at 95.  The seat row stays in `game_players` (merely marked
stopped), seat 1 finishes the hand, and `dealer_turn` — which settles every
fetched seat regardless of its stopped flag — debits seat 2 again (15 against
the dealer's 18), ending at 90 = 100 − 2·5 instead of 95. -/
theorem leave_during_play_double_debit :
    leave_room_callback roomB [rA, rB, rD] 2 bsB = (some roomB, [rA, rB', rD], bsB1) ∧
    get_user_balance bsB1 2 = 95 ∧
    room_action_callback (some roomB) [rA, rB', rD] (some 0) 1 .stand bsB1 =
      some (roomB, [rA', rB', rD], bsB1) ∧
    process_next_turn (some roomB) [rA', rB', rD] 1 = .prompt 2 1 ∧
    room_action_callback (some roomB) [rA', rB', rD] (some 1) 2 .stand bsB1 =
      some (roomB, [rA', rB', rD], bsB1) ∧
    process_next_turn (some roomB) [rA', rB', rD] 2 = .to_dealer ∧
    dealer_turn roomB [rA', rB', rD] 2 bsB1 = bsBF ∧
    get_user_balance bsBF 2 = 90 ∧
    get_user_balance bsB 2 - roomB.bet_amount = 95 ∧ (90 : Int) ≠ 95 := by
  decide

/-- C4: when the fairness draw `r` comes up 1 the room is a forced dealer
win, and every seat with value at most 21 is settled as a loss of its stake,
whatever the comparison with the dealer's value; and the settlement cascade
agrees rule by rule with the spec's priority list (bust, forced win, dealer
bust, greater, lesser, push — winners paid stake minus the 1-coin
commission). -/
theorem dealer_forced_win_settlement (r dv pv : Nat) (bet : Int)
    (hr : r = 1) (hpv : pv ≤ 21) :
    settle_delta (r == 1) dv bet pv = some (-bet) ∧
    DEALER_WIN_RATE = 3 ∧
    ∀ (f : Bool) (d : Nat) (b : Int) (v : Nat),
      settle_delta f d b v = settlement_rules_spec f d b v := by
  subst hr
  refine ⟨?_, rfl, fun f d b v => rfl⟩
  by_cases hb : pv > 21
  · simp [settle_delta, hb]
  · simp [settle_delta, hb]

/-- Witness for `dealer_forced_win_settlement`: with the draw at 1, a seat
holding 20 against a dealer's 18 — a winning comparison — still loses its
stake of 5. -/
theorem dealer_forced_win_settlement_witness :
    ((1 : Nat) = 1 ∧ (20 : Nat) ≤ 21) ∧ settle_delta (1 == 1) 18 5 20 = some (-5) :=
  ⟨⟨rfl, by decide⟩, (dealer_forced_win_settlement 1 18 20 5 rfl (by decide)).1⟩

/-- Twenty playing rooms and no waiting ones. -/
def roomsP : List Room := List.replicate 20 ⟨"R5EEEE", 1, 2, 5, .playing, []⟩

/-- C9 counterexample: with 20 rooms in playing status the count of
waiting-or-playing rooms has reached `MAX_ROOMS`, yet `create_room_start`
does not reject — its `COUNT(*)` is filtered to `status='waiting'` only. -/
theorem capacity_ignores_playing :
    create_room_start_rejects roomsP = false ∧
    MAX_ROOMS ≤ (roomsP.filter (fun r => r.status == .waiting || r.status == .playing)).length := by
  decide

/-- C9 (amended): the create-room request is rejected for capacity exactly
when the number of rooms whose status is waiting has reached
`MAX_ROOMS` (= 20); playing rooms are not counted. -/
theorem capacity_counts_waiting (rooms : List Room) :
    (create_room_start_rejects rooms = true ↔
      MAX_ROOMS ≤ (rooms.filter (fun r => r.status == .waiting)).length) ∧
    MAX_ROOMS = 20 := by
  constructor
  · simp [create_room_start_rejects]
  · rfl

/-- The rejection condition `player_index >= len(players) or
players[player_index]['user_id'] != user_id` of `room_action_callback`:
the submitter's stored index is out of range or names another user's seat. -/
def seat_mismatch (players : List Player) (idx : Nat) (uid : Int) : Bool :=
  match (players.filter (fun p => p.user_id != 0))[idx]? with
  | none => true
  | some p => p.user_id != uid

/-- A playing room with a stake of 5 and two cards left in the deck. -/
def roomC : Room := ⟨"R3CCCC", 1, 2, 5, .playing, ["4♠", "5♠"]⟩

/-- Seat 1 of `roomC`: it has already stood (stopped), its session still
holds index 0. -/
def sA : Player := ⟨1, "ann", ["10♠", "7♠"], 17, true, 0⟩

/-- Seat 2 of `roomC`: the seat currently prompted to act. -/
def sB : Player := ⟨2, "bob", ["9♠", "6♠"], 15, false, 1⟩

/-- The dealer seat of `roomC`. -/
def sD : Player := ⟨0, "Дилер", [], 0, false, 2⟩

/-- Seat 1 after its late duplicate hit was applied. -/
def sA' : Player := ⟨1, "ann", ["10♠", "7♠", "5♠"], 22, true, 0⟩

/-- `roomC` after the late hit consumed a card. -/
def roomC' : Room := ⟨"R3CCCC", 1, 2, 5, .playing, ["4♠"]⟩

/-- Balances in `roomC`. -/
def bsC : Balances := [(1, ⟨50, 0⟩), (2, ⟨50, 0⟩)]

/-- C5 counterexample: seat 1 has already stood and the turn has moved on —
`process_next_turn` is prompting seat 2 — yet a late duplicate hit from
seat 1, submitted with its stale session index 0, passes the check (the
index still names seat 1's own row; neither the stopped flag nor the current
prompt is consulted) and is applied: a card is drawn from the deck and the
hand mutated, instead of the no-op the claim requires. -/
theorem stale_action_applied :
    sA.stopped = true ∧
    process_next_turn (some roomC) [sA, sB, sD] 1 = .prompt 2 1 ∧
    room_action_callback (some roomC) [sA, sB, sD] (some 0) 1 .hit bsC =
      some (roomC', [sA', sB, sD], bsC) ∧
    roomC'.deck ≠ roomC.deck := by
  decide

lemma mismatch_rejected_aux (room : Room) (players : List Player) (idx : Nat)
    (uid : Int) (act : RoomAction) (bs : Balances)
    (h : seat_mismatch players idx uid = true) :
    room_action_callback (some room) players (some idx) uid act bs = none := by
  unfold seat_mismatch at h
  simp only [room_action_callback]
  by_cases hst : room.status ≠ RoomStatus.playing
  · simp [hst]
  · rw [if_neg hst]
    cases hx : (players.filter (fun p => p.user_id != 0))[idx]? with
    | none => rfl
    | some p =>
      have h' : (p.user_id != uid) = true := by rw [hx] at h; exact h
      simp [h']

/-- C5 (amended): an action is rejected — it produces no state change —
exactly when the submitter's session holds no game, the room row is missing,
the room is not in playing status, or `seat_mismatch` holds (the submitter's
stored seat index is out of range or names a different user's seat); every
submission passing those checks is applied.  The checks consult neither a
room-level turn pointer nor the seat's stopped flag. -/
theorem room_action_rejected_iff (roomq : Option Room) (players : List Player)
    (sIdx : Option Nat) (uid : Int) (act : RoomAction) (bs : Balances) :
    room_action_callback roomq players sIdx uid act bs = none ↔
      sIdx = none ∨ roomq = none ∨
      (∃ room, roomq = some room ∧ room.status ≠ RoomStatus.playing) ∨
      (∃ idx, sIdx = some idx ∧ seat_mismatch players idx uid = true) := by
  constructor
  · intro h
    cases sIdx with
    | none => exact Or.inl rfl
    | some idx =>
      cases roomq with
      | none => exact Or.inr (Or.inl rfl)
      | some room =>
        by_cases hst : room.status ≠ RoomStatus.playing
        · exact Or.inr (Or.inr (Or.inl ⟨room, rfl, hst⟩))
        · refine Or.inr (Or.inr (Or.inr ⟨idx, rfl, ?_⟩))
          simp only [room_action_callback] at h
          rw [if_neg hst] at h
          unfold seat_mismatch
          cases hx : (players.filter (fun p => p.user_id != 0))[idx]? with
          | none => rfl
          | some p =>
            simp only [hx] at h
            by_cases hm : (p.user_id != uid) = true
            · exact hm
            · exfalso
              rw [if_neg hm] at h
              cases act with
              | stand => exact Option.noConfusion h
              | surrender => exact Option.noConfusion h
              | hit =>
                cases hp : pop1 room.deck with
                | none => rw [hp] at h; exact Option.noConfusion h
                | some cd =>
                  obtain ⟨c, d⟩ := cd
                  rw [hp] at h
                  exact Option.noConfusion h
  · intro h
    rcases h with h | h | ⟨room, hq, hst⟩ | ⟨idx, hs, hm⟩
    · rw [h]; rfl
    · rw [h]
      cases sIdx with
      | none => rfl
      | some idx => rfl
    · rw [hq]
      cases sIdx with
      | none => rfl
      | some idx =>
        simp only [room_action_callback]
        rw [if_pos hst]
    · rw [hs]
      cases roomq with
      | none => rfl
      | some room => exact mismatch_rejected_aux room players idx uid act bs hm

lemma deal2each_map (ps : List Player) :
    ∀ deck ps' d', deal2each ps deck = some (ps', d') →
      ps'.map (fun p => (p.user_id, p.cards.length)) = ps.map (fun p => (p.user_id, 2)) := by
  induction ps with
  | nil =>
    intro deck ps' d' h
    simp only [deal2each, Option.some.injEq, Prod.mk.injEq] at h
    simp [← h.1]
  | cons p ps ih =>
    intro deck ps' d' h
    simp only [deal2each] at h
    cases h1 : pop1 deck with
    | none => simp only [h1] at h; exact Option.noConfusion h
    | some cd1 =>
      obtain ⟨c1, d1⟩ := cd1
      simp only [h1] at h
      cases h2 : pop1 d1 with
      | none => simp only [h2] at h; exact Option.noConfusion h
      | some cd2 =>
        obtain ⟨c2, d2⟩ := cd2
        simp only [h2] at h
        cases h3 : deal2each ps d2 with
        | none => simp only [h3] at h; exact Option.noConfusion h
        | some pd =>
          obtain ⟨ps0, d0⟩ := pd
          simp only [h3, Option.some.injEq, Prod.mk.injEq] at h
          rw [← h.1]
          simp [ih d2 ps0 d0 h3]

/-- A waiting two-seat room with host 1 and stake 5, about to be started. -/
def roomD : Room := ⟨"R4DDDD", 1, 2, 5, .waiting, []⟩

/-- First seat of `roomD` (joined earliest). -/
def qA : Player := ⟨1, "ann", [], 0, false, 0⟩

/-- Second seat of `roomD`. -/
def qB : Player := ⟨2, "bob", [], 0, false, 1⟩

/-- C6 counterexample: the host starts `roomD` with two seats and a fresh
52-card deck.  Each non-dealer seat is dealt exactly 2 cards, but the dealer
seat (user id 0) is INSERTed with an empty hand — it holds 0 cards after the
initial deal, not the 2 the claim states. -/
theorem start_dealer_zero_cards :
    ((start_game_callback roomD [qA, qB] 1 (create_deck id) 9).map
        (fun s => s.2.map (fun p => (p.user_id, p.cards.length)))) =
      some [(1, 2), (2, 2), (0, 0)] ∧
    (0 : Nat) ≠ 2 := by
  decide

/-- C6 (amended): whenever `start_game_callback` succeeds on seats that are
all non-dealer seats, every original seat ends with exactly 2 cards, the
dealer seat is appended with 0 cards, and the first turn prompt (index 0)
goes to the earliest-joined seat. -/
theorem start_deals_two_each (room : Room) (players : List Player) (uid : Int)
    (fresh : List String) (t : Nat) (room' : Room) (players' : List Player)
    (hstart : start_game_callback room players uid fresh t = some (room', players'))
    (hnd : players.all (fun p => p.user_id != 0) = true) :
    players'.map (fun p => (p.user_id, p.cards.length)) =
      players.map (fun p => (p.user_id, 2)) ++ [((0 : Int), (0 : Nat))] ∧
    process_next_turn (some room') players' 0 =
      (match players.head? with
       | some p0 => .prompt p0.user_id 0
       | none => .to_dealer) := by
  simp only [start_game_callback] at hstart
  by_cases h1 : room.status ≠ RoomStatus.waiting
  · rw [if_pos h1] at hstart; exact Option.noConfusion hstart
  · rw [if_neg h1] at hstart
    by_cases h2 : room.host_id ≠ uid
    · rw [if_pos h2] at hstart; exact Option.noConfusion hstart
    · rw [if_neg h2] at hstart
      by_cases h3 : players.length < MIN_PLAYERS
      · rw [if_pos h3] at hstart; exact Option.noConfusion hstart
      · rw [if_neg h3] at hstart
        cases hd : deal2each players fresh with
        | none => simp only [hd] at hstart; exact Option.noConfusion hstart
        | some pd =>
          obtain ⟨ps', d'⟩ := pd
          simp only [hd, Option.some.injEq, Prod.mk.injEq] at hstart
          obtain ⟨hroom, hplayers⟩ := hstart
          have hmap := deal2each_map players fresh ps' d' hd
          have hall : ∀ p ∈ ps', (p.user_id != 0) = true := by
            intro p hp
            have hmem : (p.user_id, p.cards.length) ∈ players.map (fun p => (p.user_id, 2)) := by
              rw [← hmap]
              exact List.mem_map_of_mem _ hp
            obtain ⟨q, hq, hqe⟩ := List.mem_map.mp hmem
            have huid : q.user_id = p.user_id := congrArg Prod.fst hqe
            rw [← huid]
            exact List.all_eq_true.mp hnd q hq
          constructor
          · rw [← hplayers, List.map_append, hmap]
            rfl
          · rw [← hroom, ← hplayers]
            simp only [process_next_turn]
            rw [if_neg (by simp)]
            rw [List.filter_append, List.filter_eq_self.mpr hall]
            rw [show List.filter (fun p => p.user_id != 0)
                  [(⟨0, "Дилер", [], 0, false, t⟩ : Player)] = [] from rfl,
                List.append_nil]
            cases hps : players with
            | nil => exact absurd (by rw [hps] at h3 ⊢; decide) h3
            | cons p0 rest =>
              cases hps' : ps' with
              | nil =>
                rw [hps', hps] at hmap
                simp at hmap
              | cons q0 rest' =>
                rw [hps', hps] at hmap
                simp only [List.map_cons, List.cons.injEq, Prod.mk.injEq] at hmap
                simp [hmap.1.1]

/-- A four-card fresh deck, enough for a two-seat initial deal. -/
def deck4 : List String := ["2♠", "3♠", "4♠", "5♠"]

/-- `roomD` after a successful start on `deck4`: playing, deck exhausted. -/
def roomD' : Room := ⟨"R4DDDD", 1, 2, 5, .playing, []⟩

/-- The seats of `roomD` after the initial deal on `deck4`, dealer last. -/
def playersD' : List Player :=
  [⟨1, "ann", ["5♠", "4♠"], 9, false, 0⟩,
   ⟨2, "bob", ["3♠", "2♠"], 5, false, 1⟩,
   ⟨0, "Дилер", [], 0, false, 9⟩]

/-- Witness for `start_deals_two_each` on the concrete start of `roomD`. -/
theorem start_deals_two_each_witness :
    playersD'.map (fun p => (p.user_id, p.cards.length)) =
      [qA, qB].map (fun p => (p.user_id, 2)) ++ [((0 : Int), (0 : Nat))] :=
  (start_deals_two_each roomD [qA, qB] 1 deck4 9 roomD' playersD'
    (by decide) (by decide)).1
